import Mathlib

/-!
Verification of the BollingerBand repository (src/BollingerBand.py).

The script is a thin strategy wrapper: its own code consists of parameter
resolution in Initialize (lines 28-35) and the decision rule in TradeLogic
(lines 53-71).  Those parts are translated here directly from the source.
The rolling Bollinger-band indicator itself is supplied by the host
framework (the call to self.BB); its code is not part of this repository,
so the indicator is modelled from the specification (RollingBandIndicator,
sections 3, 4.1 and 7 of the spec), as marked on each such definition.

Prices and band values are modelled as exact rationals (floats are a
subset of the rationals, and every comparison the code performs is an
order comparison); the band accessors, which involve a square root, are
real-valued.
-/

namespace BB

/-- Output space of the signal evaluator: the three possible decisions. -/
inductive Decision where
  | ENTER
  | EXIT
  | HOLD
deriving DecidableEq, Repr

/-- The three current band values read by TradeLogic
(self.bb.LowerBand.Current.Value, MiddleBand, UpperBand). -/
structure Band where
  middle : ℚ
  upper : ℚ
  lower : ℚ
deriving DecidableEq, Repr

/-- Decision rule of TradeLogic (src/BollingerBand.py lines 61-71), as a
function of the inputs it reads: if not invested and price is strictly below
the lower band, enter; else if invested and price is strictly above the middle
band, exit; else hold. -/
def evaluate (price : ℚ) (band : Band) (invested : Bool) : Decision :=
  if invested = false ∧ price < band.lower then .ENTER
  else if invested = true ∧ price > band.middle then .EXIT
  else .HOLD

/-- Running the evaluator over a sequence of independent calls
(price, band, invested); used to express that the evaluator is stateless. -/
def evalTrace (calls : List (ℚ × Band × Bool)) : List Decision :=
  calls.map fun c => evaluate c.1 c.2.1 c.2.2

/-- Order actions TradeLogic can perform on one tick:
SetHoldings(symbol, target) or Liquidate(symbol). -/
inductive OrderAction where
  | setHoldings (target : ℚ)
  | liquidate
deriving DecidableEq, Repr

/-- TradeLogic (src/BollingerBand.py lines 53-71) as the list of order actions
performed on one tick: return immediately while warming up; enter with
SetHoldings 1.0 when not invested and price < lower band; liquidate when
invested and price > middle band; otherwise do nothing. -/
def TradeLogic (isWarmingUp : Bool) (price : ℚ) (invested : Bool)
    (band : Band) : List OrderAction :=
  if isWarmingUp = true then []
  else if invested = false ∧ price < band.lower then [.setHoldings 1]
  else if invested = true ∧ price > band.middle then [.liquidate]
  else []

/-- Python int(s) on a string argument, restricted to what the claims need:
an optional sign followed by at least one decimal digit parses to that
integer; anything else (in particular the empty string or a non-numeric
string) raises, modelled as none. -/
def pyInt (s : String) : Option Int :=
  let core : List Char → Option Nat := fun ds =>
    if ds = [] ∨ ¬ ds.all Char.isDigit then none
    else some (ds.foldl (fun acc d => 10 * acc + (d.toNat - 48)) 0)
  match s.toList with
  | '-' :: ds => (core ds).map fun n => -(n : Int)
  | '+' :: ds => (core ds).map fun n => (n : Int)
  | ds => (core ds).map fun n => (n : Int)

/-- Python float(s) on a string argument, restricted to what the claims need:
an optional sign, at least one decimal digit, and an optional fractional part
parse to that rational; anything else (in particular the empty string or a
non-numeric string) raises, modelled as none. -/
def pyFloat (s : String) : Option ℚ :=
  let digitsVal : List Char → Nat := fun ds =>
    ds.foldl (fun acc d => 10 * acc + (d.toNat - 48)) 0
  let core : List Char → Option ℚ := fun ds =>
    let intPart := ds.takeWhile (fun c => c ≠ '.')
    let rest := ds.dropWhile (fun c => c ≠ '.')
    if intPart = [] ∨ ¬ intPart.all Char.isDigit then none
    else match rest with
      | [] => some (digitsVal intPart : ℚ)
      | '.' :: frac =>
        if ¬ frac.all Char.isDigit then none
        else some ((digitsVal intPart : ℚ) +
          (digitsVal frac : ℚ) / (10 : ℚ) ^ frac.length)
      | _ => none
  match s.toList with
  | '-' :: ds => (core ds).map fun q => -q
  | '+' :: ds => (core ds).map fun q => q
  | ds => core ds

/-- Resolution of the pair parameter (src/BollingerBand.py lines 28-30):
GetParameter returns None (modelled none) or a string; any falsy value
(None or the empty string) falls back to the default EURUSD. -/
def resolvePair (param : Option String) : String :=
  match param with
  | none => "EURUSD"
  | some s => if s = "" then "EURUSD" else s

/-- Resolution of the bb_period parameter (src/BollingerBand.py line 34):
the default 20 applies only when the parameter is exactly None; any present
string is passed to int() and may fail conversion. -/
def resolvePeriod (param : Option String) : Option Int :=
  match param with
  | none => some 20
  | some s => pyInt s

/-- Resolution of the bb_stddev parameter (src/BollingerBand.py line 35):
the default 2.0 applies only when the parameter is exactly None; any present
string is passed to float() and may fail conversion. -/
def resolveStddev (param : Option String) : Option ℚ :=
  match param with
  | none => some 2
  | some s => pyFloat s

/-- Error taxonomy of the indicator (spec section 7):
InvalidParameter at construction, NotReady on early band access. -/
inductive IndicatorError where
  | InvalidParameter
  | NotReady
deriving DecidableEq, Repr

/-- Modelled from the spec: the RollingBandIndicator data model (spec
section 3).  The Bollinger-band indicator used by the script is framework
code (the self.BB call) and is not part of this repository.  period and
multiplier are fixed at construction; window is the ordered sequence of the
most recent up to period observations, oldest first. -/
structure RollingBandIndicator where
  period : ℕ
  multiplier : ℚ
  window : List ℚ
deriving DecidableEq, Repr

/-- Modelled from the spec: construct(period, multiplier) (spec sections 4.1
and 7) validates eagerly, failing with InvalidParameter if period <= 0 or
multiplier <= 0, and otherwise yields an indicator with an empty window. -/
def construct (period : ℤ) (multiplier : ℚ) :
    Except IndicatorError RollingBandIndicator :=
  if period ≤ 0 ∨ multiplier ≤ 0 then .error .InvalidParameter
  else .ok ⟨period.toNat, multiplier, []⟩

/-- Modelled from the spec: observe(price) (spec section 4.1) appends the
price to the window, evicting the oldest element when the window already
holds period elements.  The only mutator. -/
def observe (ind : RollingBandIndicator) (price : ℚ) : RollingBandIndicator :=
  let w := ind.window ++ [price]
  { ind with window := if ind.period < w.length then w.tail else w }

/-- Feeding a whole sequence of observations, one observe call per element. -/
def feed (ind : RollingBandIndicator) (prices : List ℚ) :
    RollingBandIndicator :=
  prices.foldl observe ind

/-- Modelled from the spec: is_ready() (spec section 4.1) is true once at
least period observations have been made, i.e. once the window is full. -/
def is_ready (ind : RollingBandIndicator) : Bool :=
  ind.period ≤ ind.window.length

/-- Modelled from the spec: rolling mean over the window (spec section 3). -/
def mean (ind : RollingBandIndicator) : ℚ :=
  ind.window.sum / ind.period

/-- Modelled from the spec: population variance over the window, divisor
period, not period - 1 (spec sections 3 and 4.1). -/
def variance (ind : RollingBandIndicator) : ℚ :=
  (ind.window.map fun x => (x - mean ind) ^ 2).sum / ind.period

/-- Modelled from the spec: middle() (spec section 4.1) fails with NotReady
before period observations, and is the rolling mean afterwards. -/
noncomputable def middle (ind : RollingBandIndicator) :
    Except IndicatorError ℝ :=
  if is_ready ind then .ok (mean ind : ℝ) else .error .NotReady

/-- Modelled from the spec: upper() = mean + multiplier * sqrt(variance)
(spec section 4.1), failing with NotReady before period observations. -/
noncomputable def upper (ind : RollingBandIndicator) :
    Except IndicatorError ℝ :=
  if is_ready ind then
    .ok ((mean ind : ℝ) + (ind.multiplier : ℝ) * Real.sqrt (variance ind : ℝ))
  else .error .NotReady

/-- Modelled from the spec: lower() = mean - multiplier * sqrt(variance)
(spec section 4.1), failing with NotReady before period observations. -/
noncomputable def lower (ind : RollingBandIndicator) :
    Except IndicatorError ℝ :=
  if is_ready ind then
    .ok ((mean ind : ℝ) - (ind.multiplier : ℝ) * Real.sqrt (variance ind : ℝ))
  else .error .NotReady

/-- Modelled from the spec: a read of middle() as a state transition,
pairing the returned value with the resulting indicator state (spec
section 8, idempotence: reads perform no hidden mutation). -/
noncomputable def middleRead (ind : RollingBandIndicator) :
    Except IndicatorError ℝ × RollingBandIndicator :=
  (middle ind, ind)

/-- Modelled from the spec: a read of upper() as a state transition. -/
noncomputable def upperRead (ind : RollingBandIndicator) :
    Except IndicatorError ℝ × RollingBandIndicator :=
  (upper ind, ind)

/-- Modelled from the spec: a read of lower() as a state transition. -/
noncomputable def lowerRead (ind : RollingBandIndicator) :
    Except IndicatorError ℝ × RollingBandIndicator :=
  (lower ind, ind)

/-! Helper lemmas about the indicator state. -/

/-- observe never changes the period. -/
theorem observe_period (ind : RollingBandIndicator) (p : ℚ) :
    (observe ind p).period = ind.period := rfl

/-- The window after one observe, as an if-expression. -/
theorem observe_window (ind : RollingBandIndicator) (p : ℚ) :
    (observe ind p).window =
      if ind.period < ind.window.length + 1
      then (ind.window ++ [p]).tail else ind.window ++ [p] := by
  simp [observe]

/-- Dropping after removing the head is dropping one more from the whole. -/
theorem tail_append_drop (l xs : List ℚ) (h : 1 ≤ l.length) (n : ℕ) :
    (l.tail ++ xs).drop n = (l ++ xs).drop (n + 1) := by
  rw [← List.drop_one, ← List.drop_append_of_le_length h, List.drop_drop,
    Nat.add_comm]

/-- The window after feeding a sequence is a suffix of the accumulated
observation stream: everything except the part that overflows the period. -/
theorem feed_window (xs : List ℚ) (ind : RollingBandIndicator)
    (h : ind.window.length ≤ ind.period) :
    (feed ind xs).window =
      (ind.window ++ xs).drop (ind.window.length + xs.length - ind.period) := by
  induction xs generalizing ind with
  | nil =>
    simp [feed, Nat.sub_eq_zero_of_le h]
  | cons p xs ih =>
    show (feed (observe ind p) xs).window = _
    have hper2 : (observe ind p).period = ind.period := rfl
    have hl : (ind.window ++ [p]) ++ xs = ind.window ++ p :: xs := by simp
    by_cases hfull : ind.period < ind.window.length + 1
    · have hper : ind.window.length = ind.period := by omega
      have h1 : (observe ind p).window = (ind.window ++ [p]).tail := by
        rw [observe_window, if_pos hfull]
      have ht : (ind.window ++ [p]).tail.length = ind.window.length := by simp
      rw [ih _ (by rw [h1, ht, hper2]; omega), h1, hper2, ht]
      rw [tail_append_drop _ _ (by simp), hl]
      congr 1
      simp
      omega
    · have h1 : (observe ind p).window = ind.window ++ [p] := by
        rw [observe_window, if_neg hfull]
      have ht : (ind.window ++ [p]).length = ind.window.length + 1 := by simp
      rw [ih _ (by rw [h1, ht, hper2]; omega), h1, hper2, ht, hl]
      congr 1
      simp
      omega

/-- Length of the window after feeding a sequence. -/
theorem feed_window_length (xs : List ℚ) (ind : RollingBandIndicator)
    (h : ind.window.length ≤ ind.period) :
    (feed ind xs).window.length =
      min ind.period (ind.window.length + xs.length) := by
  rw [feed_window xs ind h]
  simp
  omega

/-- feed never changes the period. -/
theorem feed_period (xs : List ℚ) (ind : RollingBandIndicator) :
    (feed ind xs).period = ind.period := by
  induction xs generalizing ind with
  | nil => rfl
  | cons p xs ih => exact ih (observe ind p)

/-- feed never changes the multiplier. -/
theorem feed_multiplier (xs : List ℚ) (ind : RollingBandIndicator) :
    (feed ind xs).multiplier = ind.multiplier := by
  induction xs generalizing ind with
  | nil => rfl
  | cons p xs ih => exact ih (observe ind p)

/-- Inverting a successful construction: the parameters were positive and
the indicator starts with an empty window. -/
theorem construct_ok {p : ℤ} {m : ℚ} {ind : RollingBandIndicator}
    (hc : construct p m = .ok ind) :
    0 < p ∧ 0 < m ∧ ind = ⟨p.toNat, m, []⟩ := by
  unfold construct at hc
  split at hc
  · exact absurd hc (by simp)
  · next hcond =>
    push_neg at hcond
    exact ⟨hcond.1, hcond.2, (Except.ok.injEq _ _).mp hc |>.symm⟩

/-- Population variance is never negative. -/
theorem variance_nonneg (ind : RollingBandIndicator) : 0 ≤ variance ind := by
  unfold variance
  apply div_nonneg
  · apply List.sum_nonneg
    intro x hx
    simp only [List.mem_map] at hx
    obtain ⟨y, _, rfl⟩ := hx
    positivity
  · exact Nat.cast_nonneg _

/-- Mean of a full constant window. -/
theorem mean_const (ind : RollingBandIndicator) (v : ℚ)
    (hw : ind.window = List.replicate ind.period v) (hn : ind.period ≠ 0) :
    mean ind = v := by
  unfold mean
  rw [hw, List.sum_replicate, nsmul_eq_mul]
  exact mul_div_cancel_left₀ v (Nat.cast_ne_zero.mpr hn)

/-- Variance of a full constant window is zero. -/
theorem variance_const (ind : RollingBandIndicator) (v : ℚ)
    (hw : ind.window = List.replicate ind.period v) (hn : ind.period ≠ 0) :
    variance ind = 0 := by
  unfold variance
  rw [mean_const ind v hw hn, hw]
  simp

/-- Rational lower bound on the square root of two. -/
theorem sqrt_two_gt : (1414 / 1000 : ℝ) < Real.sqrt 2 := by
  rw [Real.lt_sqrt (by norm_num)]
  norm_num

/-- Rational upper bound on the square root of two. -/
theorem sqrt_two_lt : Real.sqrt 2 < 14143 / 10000 := by
  rw [Real.sqrt_lt' (by norm_num)]
  norm_num

/-! Claim theorems. -/

/-- C1: the signal evaluation is a function of (price, band, invested) in
priority order: not invested and price strictly below the lower band gives
ENTER; else invested and price strictly above the middle band gives EXIT;
else HOLD.  In particular invested = false with price >= lower gives HOLD,
and invested = true with price <= middle gives HOLD. -/
theorem evaluate_priority (price : ℚ) (band : Band) (invested : Bool) :
    (invested = false → price < band.lower →
      evaluate price band invested = .ENTER) ∧
    (invested = true → band.middle < price →
      evaluate price band invested = .EXIT) ∧
    (invested = false → band.lower ≤ price →
      evaluate price band invested = .HOLD) ∧
    (invested = true → price ≤ band.middle →
      evaluate price band invested = .HOLD) := by
  refine ⟨fun h1 h2 => ?_, fun h1 h2 => ?_, fun h1 h2 => ?_, fun h1 h2 => ?_⟩
  · subst h1; simp [evaluate, h2]
  · subst h1; simp [evaluate, h2]
  · subst h1; simp [evaluate, not_lt.mpr h2]
  · subst h1; simp [evaluate, not_lt.mpr h2]

/-- Witness for C1: not invested at price 7 against lower band 8 enters. -/
theorem evaluate_priority_check :
    evaluate 7 ⟨11, 14, 8⟩ false = Decision.ENTER :=
  (evaluate_priority 7 ⟨11, 14, 8⟩ false).1 rfl (by norm_num)

/-- C8: the evaluator is deterministic (equal inputs give equal decisions)
and stateless (each result in a sequence of calls depends only on that
call's own input, not on earlier calls). -/
theorem evaluate_stateless :
    (∀ (p₁ p₂ : ℚ) (b₁ b₂ : Band) (i₁ i₂ : Bool),
        p₁ = p₂ → b₁ = b₂ → i₁ = i₂ →
        evaluate p₁ b₁ i₁ = evaluate p₂ b₂ i₂) ∧
    (∀ (pre post : List (ℚ × Band × Bool)) (c : ℚ × Band × Bool),
        evalTrace (pre ++ c :: post) =
          evalTrace pre ++ evaluate c.1 c.2.1 c.2.2 :: evalTrace post) := by
  constructor
  · rintro p₁ p₂ b₁ b₂ i₁ i₂ rfl rfl rfl
    rfl
  · intro pre post c
    simp [evalTrace]

/-- Witness for C8: two calls with equal concrete inputs agree. -/
theorem evaluate_stateless_check :
    evaluate 7 ⟨11, 14, 8⟩ false = evaluate 7 ⟨11, 14, 8⟩ false :=
  evaluate_stateless.1 7 7 ⟨11, 14, 8⟩ ⟨11, 14, 8⟩ false false rfl rfl rfl

/-- C9: per tick, TradeLogic performs at most one order action; it enters
(SetHoldings 1.0) exactly when not warming up, not invested, and price is
strictly below the lower band; it liquidates exactly when not warming up,
invested, and price is strictly above the middle band; every tick during
warm-up does nothing; entering and exiting never both occur. -/
theorem tradeLogic_actions (w : Bool) (price : ℚ) (invested : Bool)
    (band : Band) :
    (TradeLogic w price invested band).length ≤ 1 ∧
    (w = true → TradeLogic w price invested band = []) ∧
    (TradeLogic w price invested band = [.setHoldings 1] ↔
      w = false ∧ invested = false ∧ price < band.lower) ∧
    (TradeLogic w price invested band = [.liquidate] ↔
      w = false ∧ invested = true ∧ band.middle < price) ∧
    (TradeLogic w price invested band = [] ∨
      TradeLogic w price invested band = [.setHoldings 1] ∨
      TradeLogic w price invested band = [.liquidate]) := by
  unfold TradeLogic
  split_ifs with h1 h2 h3 <;> simp_all

/-- Witness for C9: a warm-up tick performs no order action. -/
theorem tradeLogic_actions_check :
    TradeLogic true 7 false ⟨11, 14, 8⟩ = [] :=
  (tradeLogic_actions true 7 false ⟨11, 14, 8⟩).2.1 rfl

/-- C10: parameter defaulting is asymmetric: the pair falls back to EURUSD
when absent or empty (any falsy value); period 20 and multiplier 2.0 apply
only when the parameter is exactly absent; a present empty or non-numeric
bb_period / bb_stddev fails int()/float() conversion instead of defaulting;
and a present non-positive value such as 0 is accepted unvalidated. -/
theorem param_defaults :
    resolvePair none = "EURUSD" ∧
    resolvePair (some "") = "EURUSD" ∧
    (∀ s : String, s ≠ "" → resolvePair (some s) = s) ∧
    resolvePeriod none = some 20 ∧
    resolveStddev none = some 2 ∧
    resolvePeriod (some "") = none ∧
    resolveStddev (some "") = none ∧
    resolvePeriod (some "abc") = none ∧
    resolveStddev (some "abc") = none ∧
    resolvePeriod (some "0") = some 0 ∧
    resolveStddev (some "0") = some 0 := by
  refine ⟨rfl, rfl, ?_, rfl, rfl, ?_, ?_, ?_, ?_, ?_, ?_⟩
  · intro s hs
    simp [resolvePair, hs]
  all_goals decide

/-- Witness for C10: a non-empty pair parameter is used as given. -/
theorem param_defaults_check : resolvePair (some "GBPUSD") = "GBPUSD" :=
  param_defaults.2.2.1 "GBPUSD" (by decide)

/-- C3: constructing the indicator with period <= 0 or multiplier <= 0 fails
immediately with InvalidParameter (at construction, not deferred to the first
observe); construction with period > 0 and multiplier > 0 succeeds. -/
theorem construct_validates (p : ℤ) (m : ℚ) :
    (p ≤ 0 ∨ m ≤ 0 → construct p m = .error .InvalidParameter) ∧
    (0 < p → 0 < m → ∃ ind, construct p m = .ok ind ∧
      ind.period = p.toNat ∧ ind.multiplier = m ∧ ind.window = []) := by
  constructor
  · intro h
    unfold construct
    rw [if_pos h]
  · intro hp hm
    refine ⟨⟨p.toNat, m, []⟩, ?_, rfl, rfl, rfl⟩
    unfold construct
    rw [if_neg (by push_neg; exact ⟨hp, hm⟩)]

/-- Witness for C3: a negative period is rejected at construction. -/
theorem construct_validates_check :
    construct (-1) 2 = .error .InvalidParameter :=
  (construct_validates (-1) 2).1 (Or.inl (by norm_num))

/-- C2: for every validly constructed indicator, after fewer than period
observations is_ready() is false and middle(), upper(), lower() all fail with
NotReady (no default value is returned); once at least period observations
have been made, is_ready() is true and all three accessors succeed. -/
theorem not_ready_fails (p : ℤ) (m : ℚ) (ind : RollingBandIndicator)
    (hc : construct p m = .ok ind) (xs : List ℚ) :
    (xs.length < p.toNat →
      is_ready (feed ind xs) = false ∧
      middle (feed ind xs) = .error .NotReady ∧
      upper (feed ind xs) = .error .NotReady ∧
      lower (feed ind xs) = .error .NotReady) ∧
    (p.toNat ≤ xs.length →
      is_ready (feed ind xs) = true ∧
      (∃ x, middle (feed ind xs) = .ok x) ∧
      (∃ x, upper (feed ind xs) = .ok x) ∧
      (∃ x, lower (feed ind xs) = .ok x)) := by
  obtain ⟨hp, hm, rfl⟩ := construct_ok hc
  have hper : (feed ⟨p.toNat, m, []⟩ xs).period = p.toNat :=
    feed_period xs _
  have hlen : (feed ⟨p.toNat, m, []⟩ xs).window.length =
      min p.toNat xs.length := by
    simpa using feed_window_length xs ⟨p.toNat, m, []⟩ (by simp)
  constructor
  · intro hlt
    have hnr : is_ready (feed ⟨p.toNat, m, []⟩ xs) = false := by
      simp only [is_ready, hper, hlen, decide_eq_false_iff_not, not_le]
      omega
    exact ⟨hnr, by simp [middle, hnr], by simp [upper, hnr],
      by simp [lower, hnr]⟩
  · intro hge
    have hr : is_ready (feed ⟨p.toNat, m, []⟩ xs) = true := by
      simp only [is_ready, hper, hlen, decide_eq_true_eq]
      omega
    exact ⟨hr,
      ⟨(mean (feed ⟨p.toNat, m, []⟩ xs) : ℝ), by simp [middle, hr]⟩,
      ⟨(mean (feed ⟨p.toNat, m, []⟩ xs) : ℝ) +
        ((feed ⟨p.toNat, m, []⟩ xs).multiplier : ℝ) *
          Real.sqrt (variance (feed ⟨p.toNat, m, []⟩ xs) : ℝ),
        by simp [upper, hr]⟩,
      ⟨(mean (feed ⟨p.toNat, m, []⟩ xs) : ℝ) -
        ((feed ⟨p.toNat, m, []⟩ xs).multiplier : ℝ) *
          Real.sqrt (variance (feed ⟨p.toNat, m, []⟩ xs) : ℝ),
        by simp [lower, hr]⟩⟩

/-- Witness for C2: with period 2, one observation leaves the indicator not
ready and middle() fails with NotReady. -/
theorem not_ready_fails_check :
    is_ready (feed ⟨2, 1, []⟩ [5]) = false ∧
    middle (feed ⟨2, 1, []⟩ [5]) = .error .NotReady := by
  have h := (not_ready_fails 2 1 ⟨2, 1, []⟩ rfl [5]).1 (by decide)
  exact ⟨h.1, h.2.1⟩

/-- C4: for every observation sequence fed to a validly constructed
indicator, the window never exceeds period elements, and whenever ready the
band satisfies upper >= middle >= lower, with the outer bands coinciding
exactly when the window variance is zero. -/
theorem band_invariants (p : ℤ) (m : ℚ) (ind : RollingBandIndicator)
    (hc : construct p m = .ok ind) (xs : List ℚ) :
    (feed ind xs).window.length ≤ ind.period ∧
    (is_ready (feed ind xs) = true →
      ∃ mid up lo : ℝ,
        middle (feed ind xs) = .ok mid ∧
        upper (feed ind xs) = .ok up ∧
        lower (feed ind xs) = .ok lo ∧
        lo ≤ mid ∧ mid ≤ up ∧
        (up = lo ↔ variance (feed ind xs) = 0)) := by
  obtain ⟨hp, hm, rfl⟩ := construct_ok hc
  have hmul : (feed ⟨p.toNat, m, []⟩ xs).multiplier = m :=
    feed_multiplier xs _
  have hlen : (feed ⟨p.toNat, m, []⟩ xs).window.length =
      min p.toNat xs.length := by
    simpa using feed_window_length xs ⟨p.toNat, m, []⟩ (by simp)
  constructor
  · show (feed ⟨p.toNat, m, []⟩ xs).window.length ≤ p.toNat
    rw [hlen]
    omega
  · intro hr
    have hs : (0:ℝ) ≤
        (m : ℝ) * Real.sqrt (variance (feed ⟨p.toNat, m, []⟩ xs) : ℝ) := by
      apply mul_nonneg
      · exact_mod_cast hm.le
      · exact Real.sqrt_nonneg _
    refine ⟨(mean (feed ⟨p.toNat, m, []⟩ xs) : ℝ),
      (mean (feed ⟨p.toNat, m, []⟩ xs) : ℝ) +
        (m : ℝ) * Real.sqrt (variance (feed ⟨p.toNat, m, []⟩ xs) : ℝ),
      (mean (feed ⟨p.toNat, m, []⟩ xs) : ℝ) -
        (m : ℝ) * Real.sqrt (variance (feed ⟨p.toNat, m, []⟩ xs) : ℝ),
      by simp [middle, hr], by simp [upper, hr, hmul],
      by simp [lower, hr, hmul], by linarith, by linarith, ?_⟩
    constructor
    · intro he
      have hz :
          (m : ℝ) * Real.sqrt (variance (feed ⟨p.toNat, m, []⟩ xs) : ℝ) = 0 := by
        linarith
      have hm0 : (m : ℝ) ≠ 0 := by
        exact_mod_cast hm.ne'
      have hsq : Real.sqrt (variance (feed ⟨p.toNat, m, []⟩ xs) : ℝ) = 0 := by
        rcases mul_eq_zero.mp hz with h | h
        · exact absurd h hm0
        · exact h
      have hv : ((variance (feed ⟨p.toNat, m, []⟩ xs) : ℚ) : ℝ) = 0 := by
        rwa [Real.sqrt_eq_zero (by exact_mod_cast variance_nonneg _)] at hsq
      exact_mod_cast hv
    · intro hv
      rw [hv]
      simp

/-- Witness for C4: a ready period-1 indicator has an ordered band. -/
theorem band_invariants_check :
    ∃ mid up lo : ℝ,
      middle (feed ⟨1, 1, []⟩ [5]) = .ok mid ∧
      upper (feed ⟨1, 1, []⟩ [5]) = .ok up ∧
      lower (feed ⟨1, 1, []⟩ [5]) = .ok lo ∧
      lo ≤ mid ∧ mid ≤ up ∧
      (up = lo ↔ variance (feed ⟨1, 1, []⟩ [5]) = 0) :=
  (band_invariants 1 1 ⟨1, 1, []⟩ rfl [5]).2 (by decide)

/-- C5: after feeding period + k observations to a validly constructed
indicator, the window holds exactly the last period observations fed, in
order (the oldest evicted on each observe once full), and mean and variance
are computed over exactly that window. -/
theorem sliding_window (p : ℤ) (m : ℚ) (ind : RollingBandIndicator)
    (hc : construct p m = .ok ind) (xs : List ℚ) (k : ℕ)
    (hlen : xs.length = p.toNat + k) :
    (feed ind xs).window = xs.drop k ∧
    (feed ind xs).window.length = p.toNat ∧
    mean (feed ind xs) = (xs.drop k).sum / (p.toNat : ℚ) ∧
    variance (feed ind xs) =
      ((xs.drop k).map fun x =>
        (x - (xs.drop k).sum / (p.toNat : ℚ)) ^ 2).sum / (p.toNat : ℚ) := by
  obtain ⟨hp, hm, rfl⟩ := construct_ok hc
  have hper : (feed ⟨p.toNat, m, []⟩ xs).period = p.toNat :=
    feed_period xs _
  have hw : (feed ⟨p.toNat, m, []⟩ xs).window = xs.drop k := by
    have h := feed_window xs ⟨p.toNat, m, []⟩ (by simp)
    simpa [hlen, Nat.add_sub_cancel_left] using h
  have hl : (feed ⟨p.toNat, m, []⟩ xs).window.length = p.toNat := by
    rw [hw, List.length_drop, hlen]
    omega
  have hmean : mean (feed ⟨p.toNat, m, []⟩ xs) =
      (xs.drop k).sum / (p.toNat : ℚ) := by
    unfold mean
    rw [hw, hper]
  have hvar : variance (feed ⟨p.toNat, m, []⟩ xs) =
      ((xs.drop k).map fun x =>
        (x - (xs.drop k).sum / (p.toNat : ℚ)) ^ 2).sum / (p.toNat : ℚ) := by
    unfold variance
    rw [hmean, hw, hper]
  exact ⟨hw, hl, hmean, hvar⟩

/-- Witness for C5: period 2 fed three observations keeps the last two. -/
theorem sliding_window_check :
    (feed ⟨2, 1, []⟩ [1, 2, 3]).window = [1, 2, 3].drop 1 :=
  (sliding_window 2 1 ⟨2, 1, []⟩ rfl [1, 2, 3] 1 (by decide)).1

/-- C6: when ready the band matches the reference definition with population
variance (divisor period): after period identical observations of value v the
three band values all equal v; and for period 3, multiplier 2, window
[10, 10, 13]: mean 11, population variance 2, upper = 11 + 2 * sqrt 2 which is
within 0.01 of 13.83, lower = 11 - 2 * sqrt 2 which is within 0.01 of 8.17. -/
theorem band_reference_values :
    (∀ (p : ℤ) (m : ℚ) (ind : RollingBandIndicator) (v : ℚ),
        construct p m = .ok ind →
        middle (feed ind (List.replicate p.toNat v)) = .ok (v : ℝ) ∧
        upper (feed ind (List.replicate p.toNat v)) = .ok (v : ℝ) ∧
        lower (feed ind (List.replicate p.toNat v)) = .ok (v : ℝ)) ∧
    ((feed ⟨3, 2, []⟩ [10, 10, 10, 13]).window = [10, 10, 13] ∧
     mean (feed ⟨3, 2, []⟩ [10, 10, 10, 13]) = 11 ∧
     variance (feed ⟨3, 2, []⟩ [10, 10, 10, 13]) = 2 ∧
     middle (feed ⟨3, 2, []⟩ [10, 10, 10, 13]) = .ok (11 : ℝ) ∧
     upper (feed ⟨3, 2, []⟩ [10, 10, 10, 13]) = .ok (11 + 2 * Real.sqrt 2) ∧
     lower (feed ⟨3, 2, []⟩ [10, 10, 10, 13]) = .ok (11 - 2 * Real.sqrt 2) ∧
     |(11 + 2 * Real.sqrt 2 : ℝ) - 13.83| < 1 / 100 ∧
     |(11 - 2 * Real.sqrt 2 : ℝ) - 8.17| < 1 / 100) := by
  constructor
  · rintro p m ind v hc
    obtain ⟨hp, hm, rfl⟩ := construct_ok hc
    have hper : (feed ⟨p.toNat, m, []⟩ (List.replicate p.toNat v)).period =
        p.toNat := feed_period _ _
    have hmul : (feed ⟨p.toNat, m, []⟩ (List.replicate p.toNat v)).multiplier =
        m := feed_multiplier _ _
    have hw : (feed ⟨p.toNat, m, []⟩ (List.replicate p.toNat v)).window =
        List.replicate p.toNat v := by
      have h := feed_window (List.replicate p.toNat v) ⟨p.toNat, m, []⟩
        (by simp)
      simpa using h
    have hnz : p.toNat ≠ 0 := by omega
    have hmean : mean (feed ⟨p.toNat, m, []⟩ (List.replicate p.toNat v)) = v :=
      mean_const _ v (by rw [hper]; exact hw) (by rw [hper]; exact hnz)
    have hvar :
        variance (feed ⟨p.toNat, m, []⟩ (List.replicate p.toNat v)) = 0 :=
      variance_const _ v (by rw [hper]; exact hw) (by rw [hper]; exact hnz)
    have hr : is_ready (feed ⟨p.toNat, m, []⟩ (List.replicate p.toNat v)) =
        true := by
      simp only [is_ready, hper, hw, List.length_replicate,
        decide_eq_true_eq]
      exact le_refl _
    exact ⟨by simp [middle, hr, hmean],
      by simp [upper, hr, hmean, hvar, hmul],
      by simp [lower, hr, hmean, hvar, hmul]⟩
  · have hr : is_ready (feed ⟨3, 2, []⟩ [10, 10, 10, 13]) = true := by decide
    have hwin : (feed ⟨3, 2, []⟩ [10, 10, 10, 13]).window = [10, 10, 13] := by
      decide
    have hper : (feed ⟨3, 2, []⟩ [10, 10, 10, 13]).period = 3 :=
      feed_period _ _
    have hmean : mean (feed ⟨3, 2, []⟩ [10, 10, 10, 13]) = 11 := by
      unfold mean
      rw [hwin, hper]
      norm_num [List.sum_cons, List.sum_nil]
    have hvar : variance (feed ⟨3, 2, []⟩ [10, 10, 10, 13]) = 2 := by
      unfold variance
      rw [hmean, hwin, hper]
      norm_num [List.sum_cons, List.sum_nil, List.map_cons, List.map_nil]
    have hmul : (feed ⟨3, 2, []⟩ [10, 10, 10, 13]).multiplier = 2 :=
      feed_multiplier _ _
    refine ⟨hwin, hmean, hvar, ?_, ?_, ?_, ?_, ?_⟩
    · simp [middle, hr, hmean]
    · simp [upper, hr, hmean, hvar, hmul]
    · simp [lower, hr, hmean, hvar, hmul]
    · rw [show (13.83 : ℝ) = 1383 / 100 by norm_num, abs_lt]
      constructor <;> linarith [sqrt_two_gt, sqrt_two_lt]
    · rw [show (8.17 : ℝ) = 817 / 100 by norm_num, abs_lt]
      constructor <;> linarith [sqrt_two_gt, sqrt_two_lt]

/-- Witness for C6: two identical observations at period 2 collapse the
band onto the observed value. -/
theorem band_reference_values_check :
    middle (feed ⟨(2:ℤ).toNat, 1, []⟩ (List.replicate (2:ℤ).toNat 5)) =
      .ok (5 : ℝ) :=
  (band_reference_values.1 2 1 ⟨(2:ℤ).toNat, 1, []⟩ 5 rfl).1

/-- C7: with the indicator ready, reading middle(), upper(), or lower() any
number of times without an intervening observe leaves the indicator state
unchanged and returns the same successful value each time: reads have no
side effects. -/
theorem reads_pure (ind : RollingBandIndicator)
    (h : is_ready ind = true) (n : ℕ) :
    ((fun s => (middleRead s).2)^[n] ind = ind) ∧
    ((fun s => (upperRead s).2)^[n] ind = ind) ∧
    ((fun s => (lowerRead s).2)^[n] ind = ind) ∧
    ((middleRead ((fun s => (middleRead s).2)^[n] ind)).1 =
      (middleRead ind).1) ∧
    ((upperRead ((fun s => (upperRead s).2)^[n] ind)).1 =
      (upperRead ind).1) ∧
    ((lowerRead ((fun s => (lowerRead s).2)^[n] ind)).1 =
      (lowerRead ind).1) ∧
    (∃ x, (middleRead ind).1 = .ok x) ∧
    (∃ x, (upperRead ind).1 = .ok x) ∧
    (∃ x, (lowerRead ind).1 = .ok x) := by
  have hm : (fun s => (middleRead s).2)^[n] ind = ind :=
    Function.iterate_fixed rfl n
  have hu : (fun s => (upperRead s).2)^[n] ind = ind :=
    Function.iterate_fixed rfl n
  have hl : (fun s => (lowerRead s).2)^[n] ind = ind :=
    Function.iterate_fixed rfl n
  refine ⟨hm, hu, hl, by rw [hm], by rw [hu], by rw [hl], ?_, ?_, ?_⟩
  · exact ⟨(mean ind : ℝ), by simp [middleRead, middle, h]⟩
  · exact ⟨(mean ind : ℝ) +
      (ind.multiplier : ℝ) * Real.sqrt (variance ind : ℝ),
      by simp [upperRead, upper, h]⟩
  · exact ⟨(mean ind : ℝ) -
      (ind.multiplier : ℝ) * Real.sqrt (variance ind : ℝ),
      by simp [lowerRead, lower, h]⟩

/-- Witness for C7: three repeated middle() reads on a ready indicator. -/
theorem reads_pure_check :
    (fun s => (middleRead s).2)^[3] ⟨1, 1, [5]⟩ = ⟨1, 1, [5]⟩ ∧
    (middleRead ((fun s => (middleRead s).2)^[3] ⟨1, 1, [5]⟩)).1 =
      (middleRead ⟨1, 1, [5]⟩).1 ∧
    ∃ x, (middleRead ⟨1, 1, [5]⟩).1 = .ok x := by
  have h := reads_pure ⟨1, 1, [5]⟩ (by decide) 3
  exact ⟨h.1, h.2.2.2.1, h.2.2.2.2.2.2.1⟩

end BB
